import Mathlib

/-!
Verification of the comptime duration parser
(`vendor/github.com/frobware/comptime/duration_parser.go`) and the
`formatDuration` helper of `haproxytime.go`, shallowly embedded in Lean.

Go `int64` values are modelled as unbounded `Int` together with the
explicit wraparound function `wrap64` at the one place the Go code
multiplies without a prior guard, and the explicit pre-multiplication
guard of `consumeNumber`.  Go strings are modelled as `List Char`
(all inputs of interest are ASCII).  A Go panic (out-of-range array
index, which can happen for a `defaultUnit` outside the `Unit`
enumeration) is modelled by the dedicated result `ParseResult.panicked`.
-/

namespace Comptime

/-- Go constant `math.MaxInt64`. -/
def maxInt64 : Int := 9223372036854775807

/-- Go constant `math.MaxInt64 / 10`, the guard constant of
`consumeNumber`. -/
def maxInt64Div10 : Int := 922337203685477580

/-- Wraparound of an unbounded integer into the signed 64-bit range,
the semantics Go gives to `int64` arithmetic. -/
def wrap64 (x : Int) : Int := (x + 2 ^ 63) % 2 ^ 64 - 2 ^ 63

/-- Go type `Unit` is `uint`; the six declared constants are
`Microsecond = 0 .. Day = 5`, but any `uint` value inhabits the type. -/
abbrev GoUnit := Nat

def Microsecond : GoUnit := 0
def Millisecond : GoUnit := 1
def Second : GoUnit := 2
def Minute : GoUnit := 3
def Hour : GoUnit := 4
def Day : GoUnit := 5

/-- Go type `ParseMode`. -/
inductive ParseMode where
  | multiUnit
  | singleUnit
deriving DecidableEq, Repr

/-- The cause carried by a `SyntaxError`. -/
inductive SyntaxErrorCause where
  | invalidNumber
  | invalidUnit
  | invalidUnitOrder
  | unexpectedCharactersInSingleUnitMode
deriving DecidableEq, Repr

/-- The three error types `ParseDuration` can return, each carrying its
0-based position in the input. -/
inductive ParseError where
  | syntaxError (cause : SyntaxErrorCause) (position : Nat)
  | overflowError (position : Nat)
  | rangeError (position : Nat)
deriving DecidableEq, Repr

/-- Result of `ParseDuration`: a duration (`time.Duration`, i.e. an
`int64` count of nanoseconds), an error, or a Go panic (reachable only
through an out-of-range `unitProperties` index). -/
inductive ParseResult where
  | ok (duration : Int)
  | failed (e : ParseError)
  | panicked
deriving DecidableEq, Repr

/-- Go struct `unitDuration`: a unit together with the `time.Duration` one unit
represents. -/
structure UnitDuration where
  unit : GoUnit
  duration : Int
deriving DecidableEq, Repr

/-- The `unitProperties` array (durations in nanoseconds, as
`time.Duration` counts nanoseconds). -/
def unitProperties : List UnitDuration :=
  [⟨Microsecond, 1000⟩,
   ⟨Millisecond, 1000000⟩,
   ⟨Second, 1000000000⟩,
   ⟨Minute, 60000000000⟩,
   ⟨Hour, 3600000000000⟩,
   ⟨Day, 86400000000000⟩]

/-- The digit test `c >= '0' && c <= '9'` of the consumeNumber loop. -/
def isDigitChar (c : Char) : Bool := '0' ≤ c && c ≤ '9'

/-- Function `consumeUnit input start`: attempt to read a unit symbol at `start`,
first trying the two-character symbols "ms"/"us", then the
single-character ones.  Mirrors the Go function; `input.get? start =
none` cannot arise from `ParseDuration`, which only calls it with
`start < input.length`. -/
def consumeUnit (input : List Char) (start : Nat) : GoUnit × Nat × Bool :=
  if input.get? (start + 1) = some 's' then
    match input.get? start with
    | some 'm' => (Millisecond, start + 2, true)
    | some 'u' => (Microsecond, start + 2, true)
    | _ => consumeUnitSingle input start
  else
    consumeUnitSingle input start
where
  /-- The fallback single-character `switch` of `consumeUnit`. -/
  consumeUnitSingle (input : List Char) (start : Nat) : GoUnit × Nat × Bool :=
    match input.get? start with
    | some 'h' => (Hour, start + 1, true)
    | some 'm' => (Minute, start + 1, true)
    | some 's' => (Second, start + 1, true)
    | some 'd' => (Day, start + 1, true)
    | _ => (Day, start, false)

/-- Go type `consumeNumberError` (the zero value, "no error", is `none` of an
`Option` at use sites). -/
inductive ConsumeNumberError where
  | noNumberFound
  | overflow
deriving DecidableEq, Repr

/-- The digit-accumulation loop of `consumeNumber`: `rest` is the
unconsumed suffix of the input, `position` its 0-based offset in the
input, `value` the accumulated value.  Returns `(value, position,
error?)` exactly as the Go loop leaves them. -/
def consumeNumberLoop : List Char → Nat → Int → Int × Nat × Option ConsumeNumberError
  | [], position, value => (value, position, none)
  | c :: rest, position, value =>
    if isDigitChar c then
      let digit : Int := (c.toNat : Int) - ('0'.toNat : Int)
      if value > maxInt64Div10 ∨ (value = maxInt64Div10 ∧ digit > 7) then
        (0, position, some .overflow)
      else
        consumeNumberLoop rest (position + 1) (value * 10 + digit)
    else
      (value, position, none)

/-- Function `consumeNumber input start`: scan a contiguous digit run starting at
`start`, with the pre-multiplication overflow guard of the Go code. -/
def consumeNumber (input : List Char) (start : Nat) : Int × Nat × Option ConsumeNumberError :=
  match consumeNumberLoop (input.drop start) start 0 with
  | (value, position, none) =>
    if position = start then (0, position, some .noNumberFound)
    else (value, position, none)
  | r => r

/-- Go type `RangeChecker`; the Go parameter may be `nil`, modelled by wrapping
in `Option` at the `ParseDuration` boundary. -/
abbrev RangeChecker := Nat → Int → Int → Bool

/-- The sentinel `NoRangeChecking` checker, which always allows. -/
def NoRangeChecking : RangeChecker := fun _ _ _ => true

/-- The guard `inRangeChecker != nil && !inRangeChecker(position,
compositeDuration, totalDuration)` of `ParseDuration`. -/
def rangeRejects (rc : Option RangeChecker) (position : Nat) (value totalSoFar : Int) : Bool :=
  match rc with
  | some checker => !(checker position value totalSoFar)
  | none => false

/-- The `for position < len(input)` loop of `ParseDuration`, with the
loop-carried state (`position`, `totalDuration`, `prevUnit`) as
arguments.  `fuel` makes the recursion structural; `ParseDuration`
passes `input.length`, which always suffices because every iteration
advances `position` by at least one (see `parseLoop_no_panic`), so the
fuel-exhaustion branch is unreachable from `ParseDuration`.  The
unbounded addition `totalDuration + compositeDuration` coincides with
the Go `int64` addition on every state reachable from `ParseDuration`:
the overflow check just above it keeps the sum inside
`[0, maxInt64]` (see `parseLoop_ok_bounds`). -/
def parseLoop (input : List Char) (defaultUnit : GoUnit) (parseMode : ParseMode)
    (inRangeChecker : Option RangeChecker) :
    Nat → Nat → Int → GoUnit → ParseResult
  | fuel, position, totalDuration, prevUnit =>
    if position < input.length then
      match fuel with
      | 0 => .panicked
      | fuel + 1 =>
        let numStartPos := position
        match consumeNumber input numStartPos with
        | (_, _, some .noNumberFound) => .failed (.syntaxError .invalidNumber numStartPos)
        | (_, _, some .overflow) => .failed (.overflowError numStartPos)
        | (value, numEndPos, none) =>
          let unitStartPos := numEndPos
          let unitRes :=
            if unitStartPos < input.length then consumeUnit input unitStartPos
            else (defaultUnit, 0, true)
          let unit := unitRes.1
          let unitEndPos := unitRes.2.1
          let validUnit := unitRes.2.2
          if !validUnit then
            .failed (.syntaxError .invalidUnit unitStartPos)
          else if position > 0 ∧ prevUnit ≤ unit then
            .failed (.syntaxError .invalidUnitOrder unitStartPos)
          else
            match unitProperties[unit]? with
            | none => .panicked
            | some up =>
              let compositeDuration := wrap64 (value * up.duration)
              if compositeDuration < 0 ∨ totalDuration > maxInt64 - compositeDuration then
                .failed (.overflowError numStartPos)
              else if rangeRejects inRangeChecker position compositeDuration totalDuration then
                .failed (.rangeError numStartPos)
              else
                let totalDuration := totalDuration + compositeDuration
                let position := max unitEndPos numEndPos
                if parseMode = .singleUnit ∧ position < input.length then
                  .failed (.syntaxError .unexpectedCharactersInSingleUnitMode position)
                else
                  parseLoop input defaultUnit parseMode inRangeChecker fuel position totalDuration unit
    else
      .ok totalDuration

/-- `ParseDuration` on the character-list representation of the input. -/
def parseDurationChars (input : List Char) (defaultUnit : GoUnit) (parseMode : ParseMode)
    (inRangeChecker : Option RangeChecker) : ParseResult :=
  parseLoop input defaultUnit parseMode inRangeChecker input.length 0 0 Day

/-- Go function `ParseDuration input defaultUnit parseMode inRangeChecker`. -/
def ParseDuration (input : String) (defaultUnit : GoUnit) (parseMode : ParseMode)
    (inRangeChecker : Option RangeChecker) : ParseResult :=
  parseDurationChars input.data defaultUnit parseMode inRangeChecker

/-- Decimal digit character, `48 + n` for `n < 10`. -/
def digitChar (n : Nat) : Char := Char.ofNat (48 + n)

/-- Accumulator loop producing the decimal digits of `n`,
most-significant first, structurally recursive on `fuel` (any `fuel`
with `n < 10 ^ fuel` gives the full expansion). -/
def natToCharsCore : Nat → Nat → List Char → List Char
  | 0, _, acc => acc
  | fuel + 1, n, acc =>
    let acc' := digitChar (n % 10) :: acc
    if n / 10 = 0 then acc' else natToCharsCore fuel (n / 10) acc'

/-- Decimal rendering of a natural number, as Go `fmt.Sprintf("%d", n)`
produces it (no leading zeros; `natToChars 0 = "0"`). -/
def natToChars (n : Nat) : List Char := natToCharsCore (n + 1) n []

/-- Decimal rendering of an `int64`, as Go `fmt.Sprintf("%d", i)`. -/
def intToChars (i : Int) : List Char :=
  if i < 0 then '-' :: natToChars (-i).toNat else natToChars i.toNat

/-- Go function `formatDuration` of `haproxytime.go`: break a
`time.Duration` into days, hours, minutes, seconds and milliseconds,
rendering each component only when positive.  Go integer division on
`int64` truncates toward zero, hence `Int.tdiv`. -/
def formatDuration (duration : Int) : List Char :=
  if duration = 0 then ['0', 'm', 's']
  else
    let day : Int := 3600000000000 * 24
    let days := duration.tdiv day
    let duration := duration - days * day
    let hours := duration.tdiv 3600000000000
    let duration := duration - hours * 3600000000000
    let minutes := duration.tdiv 60000000000
    let duration := duration - minutes * 60000000000
    let seconds := duration.tdiv 1000000000
    let duration := duration - seconds * 1000000000
    let milliseconds := duration.tdiv 1000000
    (if days > 0 then intToChars days ++ ['d'] else []) ++
    (if hours > 0 then intToChars hours ++ ['h'] else []) ++
    (if minutes > 0 then intToChars minutes ++ ['m'] else []) ++
    (if seconds > 0 then intToChars seconds ++ ['s'] else []) ++
    (if milliseconds > 0 then intToChars milliseconds ++ ['m', 's'] else [])

/-- The unit symbol of each declared unit (empty for values outside the
enumeration); matches the symbols recognised by `consumeUnit`. -/
def unitChars : GoUnit → List Char
  | 0 => ['u', 's']
  | 1 => ['m', 's']
  | 2 => ['s']
  | 3 => ['m']
  | 4 => ['h']
  | 5 => ['d']
  | _ => []

/-- The tick multiplier (nanoseconds per unit) of each declared unit,
matching `unitProperties`; 0 outside the enumeration. -/
def unitNs : GoUnit → Int
  | 0 => 1000
  | 1 => 1000000
  | 2 => 1000000000
  | 3 => 60000000000
  | 4 => 3600000000000
  | 5 => 86400000000000
  | _ => 0

/-- Text of one number-and-unit component. -/
def renderComp (c : Nat × GoUnit) : List Char := natToChars c.1 ++ unitChars c.2

/-- Text of a sequence of components. -/
def renderComps (comps : List (Nat × GoUnit)) : List Char := (comps.map renderComp).flatten

/-- Exact (unwrapped) duration of one component. -/
def compDur (c : Nat × GoUnit) : Int := (c.1 : Int) * unitNs c.2

/-- Exact total duration of a sequence of components. -/
def sumComps (comps : List (Nat × GoUnit)) : Int := (comps.map compDur).sum

/-- Most-significant-first decimal digit expansion, by plain
well-founded recursion; the reference point `natToChars` is proved
equal to it. -/
def natDigitsList (n : Nat) : List Char :=
  if _h : n < 10 then [digitChar n]
  else natDigitsList (n / 10) ++ [digitChar (n % 10)]
termination_by n
decreasing_by exact Nat.div_lt_self (by omega) (by omega)

/-- Horner accumulation of decimal digit characters starting from `a`,
exactly the accumulation performed by `consumeNumberLoop`. -/
def digitsVal (a : Int) (cs : List Char) : Int :=
  cs.foldl (fun v c => v * 10 + ((c.toNat : Int) - 48)) a

/-- The units of the components of `input`, starting at `position` with
previous unit `prevUnit`, are lexed exactly as `parseLoop` lexes them
and appear in strictly descending magnitude order (the order check is
skipped at position 0, as in the code). -/
inductive UnitsDescending (input : List Char) (defaultUnit : GoUnit) : Nat → GoUnit → Prop where
  | done (position : Nat) (prevUnit : GoUnit)
      (h : input.length ≤ position) : UnitsDescending input defaultUnit position prevUnit
  | step (position : Nat) (prevUnit : GoUnit) (value : Int) (numEndPos : Nat)
      (unit : GoUnit) (unitEndPos : Nat) (hlt : position < input.length)
      (hnum : consumeNumber input position = (value, numEndPos, none))
      (hunit : (if numEndPos < input.length then consumeUnit input numEndPos
                else (defaultUnit, 0, true)) = (unit, unitEndPos, true))
      (hord : 0 < position → unit < prevUnit)
      (hrest : UnitsDescending input defaultUnit (max unitEndPos numEndPos) unit) :
      UnitsDescending input defaultUnit position prevUnit

/-- The component breakdown computed by `formatDuration` for a
duration, as (value, unit) pairs with zero components omitted, used to
state the round-trip property. -/
def formatComps (duration : Int) : List (Nat × GoUnit) :=
  let day : Int := 3600000000000 * 24
  let days := duration.tdiv day
  let d1 := duration - days * day
  let hours := d1.tdiv 3600000000000
  let d2 := d1 - hours * 3600000000000
  let minutes := d2.tdiv 60000000000
  let d3 := d2 - minutes * 60000000000
  let seconds := d3.tdiv 1000000000
  let d4 := d3 - seconds * 1000000000
  let milliseconds := d4.tdiv 1000000
  (if days > 0 then [(days.toNat, Day)] else []) ++
  (if hours > 0 then [(hours.toNat, Hour)] else []) ++
  (if minutes > 0 then [(minutes.toNat, Minute)] else []) ++
  (if seconds > 0 then [(seconds.toNat, Second)] else []) ++
  (if milliseconds > 0 then [(milliseconds.toNat, Millisecond)] else [])

/-! ## Shared helper lemmas -/

theorem consumeNumberLoop_le (rest : List Char) :
    ∀ (position : Nat) (value : Int), position ≤ (consumeNumberLoop rest position value).2.1 := by
  induction rest with
  | nil => intro position value; simp [consumeNumberLoop]
  | cons c rest ih =>
    intro position value
    simp only [consumeNumberLoop]
    split
    · split
      · simp
      · exact le_trans (Nat.le_succ position) (ih (position + 1) _)
    · simp

theorem consumeNumber_none_lt {input : List Char} {start : Nat} {value : Int} {pos : Nat}
    (h : consumeNumber input start = (value, pos, none)) : start < pos := by
  unfold consumeNumber at h
  rcases hl : consumeNumberLoop (input.drop start) start 0 with ⟨v, p, e⟩
  have hp := consumeNumberLoop_le (input.drop start) start 0
  rw [hl] at h hp
  match e with
  | none =>
    simp only at h
    simp only at hp
    split at h
    · exact absurd h (by simp)
    · next hne =>
      simp only [Prod.mk.injEq] at h
      omega
  | some .noNumberFound => simp at h
  | some .overflow => simp at h

theorem consumeUnit_fst_le (input : List Char) (start : Nat) :
    (consumeUnit input start).1 ≤ 5 := by
  have hsingle : (consumeUnit.consumeUnitSingle input start).1 ≤ 5 := by
    unfold consumeUnit.consumeUnitSingle
    split <;> simp [Hour, Minute, Second, Day]
  unfold consumeUnit
  split
  · split <;> simp_all [Millisecond, Microsecond]
  · exact hsingle

theorem unitProperties_getElem?_of_lt {u : GoUnit} (h : u < 6) :
    unitProperties[u]? = some ⟨u, unitNs u⟩ := by
  interval_cases u <;> rfl

theorem unitProperties_getElem?_of_ge {u : GoUnit} (h : 6 ≤ u) :
    unitProperties[u]? = none := by
  apply List.getElem?_eq_none
  simpa [unitProperties] using h

/-! ### One-iteration unfolding lemmas for `parseLoop`

Each lemma describes one exit (or the continuation) of the loop body
under the hypotheses that select the corresponding path. -/

theorem parseLoop_exit (input : List Char) (du : GoUnit) (pm : ParseMode)
    (rc : Option RangeChecker) (fuel pos : Nat) (total : Int) (prevU : GoUnit)
    (hge : input.length ≤ pos) :
    parseLoop input du pm rc fuel pos total prevU = .ok total := by
  rw [parseLoop.eq_def]
  simp [Nat.not_lt.2 hge]

theorem parseLoop_step_noNumber (input : List Char) (du : GoUnit) (pm : ParseMode)
    (rc : Option RangeChecker) (fuel pos : Nat) (total : Int) (prevU : GoUnit)
    {v : Int} {p : Nat} (hlt : pos < input.length)
    (hn : consumeNumber input pos = (v, p, some .noNumberFound)) :
    parseLoop input du pm rc (fuel + 1) pos total prevU =
      .failed (.syntaxError .invalidNumber pos) := by
  rw [parseLoop]
  simp [hlt, hn]

theorem parseLoop_step_numOverflow (input : List Char) (du : GoUnit) (pm : ParseMode)
    (rc : Option RangeChecker) (fuel pos : Nat) (total : Int) (prevU : GoUnit)
    {v : Int} {p : Nat} (hlt : pos < input.length)
    (hn : consumeNumber input pos = (v, p, some .overflow)) :
    parseLoop input du pm rc (fuel + 1) pos total prevU =
      .failed (.overflowError pos) := by
  rw [parseLoop]
  simp [hlt, hn]

theorem parseLoop_step_invalidUnit (input : List Char) (du : GoUnit) (pm : ParseMode)
    (rc : Option RangeChecker) (fuel pos : Nat) (total : Int) (prevU : GoUnit)
    {v : Int} {p : Nat} {u : GoUnit} {e : Nat} (hlt : pos < input.length)
    (hn : consumeNumber input pos = (v, p, none))
    (hu : (if p < input.length then consumeUnit input p else (du, 0, true)) = (u, e, false)) :
    parseLoop input du pm rc (fuel + 1) pos total prevU =
      .failed (.syntaxError .invalidUnit p) := by
  rw [parseLoop]
  simp [hlt, hn, hu]

theorem parseLoop_step_unitOrder (input : List Char) (du : GoUnit) (pm : ParseMode)
    (rc : Option RangeChecker) (fuel pos : Nat) (total : Int) (prevU : GoUnit)
    {v : Int} {p : Nat} {u : GoUnit} {e : Nat} (hlt : pos < input.length)
    (hn : consumeNumber input pos = (v, p, none))
    (hu : (if p < input.length then consumeUnit input p else (du, 0, true)) = (u, e, true))
    (hpos : 0 < pos) (hord : prevU ≤ u) :
    parseLoop input du pm rc (fuel + 1) pos total prevU =
      .failed (.syntaxError .invalidUnitOrder p) := by
  rw [parseLoop]
  simp [hlt, hn, hu, hpos, hord]

theorem parseLoop_step_panic (input : List Char) (du : GoUnit) (pm : ParseMode)
    (rc : Option RangeChecker) (fuel pos : Nat) (total : Int) (prevU : GoUnit)
    {v : Int} {p : Nat} {u : GoUnit} {e : Nat} (hlt : pos < input.length)
    (hn : consumeNumber input pos = (v, p, none))
    (hu : (if p < input.length then consumeUnit input p else (du, 0, true)) = (u, e, true))
    (hord : ¬(0 < pos ∧ prevU ≤ u))
    (hup : unitProperties[u]? = none) :
    parseLoop input du pm rc (fuel + 1) pos total prevU = .panicked := by
  rw [parseLoop]
  simp [hlt, hn, hu, hord, hup]

theorem parseLoop_step_mulOverflow (input : List Char) (du : GoUnit) (pm : ParseMode)
    (rc : Option RangeChecker) (fuel pos : Nat) (total : Int) (prevU : GoUnit)
    {v : Int} {p : Nat} {u : GoUnit} {e : Nat} {up : UnitDuration} (hlt : pos < input.length)
    (hn : consumeNumber input pos = (v, p, none))
    (hu : (if p < input.length then consumeUnit input p else (du, 0, true)) = (u, e, true))
    (hord : ¬(0 < pos ∧ prevU ≤ u))
    (hup : unitProperties[u]? = some up)
    (hov : wrap64 (v * up.duration) < 0 ∨ total > maxInt64 - wrap64 (v * up.duration)) :
    parseLoop input du pm rc (fuel + 1) pos total prevU =
      .failed (.overflowError pos) := by
  rw [parseLoop]
  simp [hlt, hn, hu, hord, hup, hov]

theorem parseLoop_step_range (input : List Char) (du : GoUnit) (pm : ParseMode)
    (rc : Option RangeChecker) (fuel pos : Nat) (total : Int) (prevU : GoUnit)
    {v : Int} {p : Nat} {u : GoUnit} {e : Nat} {up : UnitDuration} (hlt : pos < input.length)
    (hn : consumeNumber input pos = (v, p, none))
    (hu : (if p < input.length then consumeUnit input p else (du, 0, true)) = (u, e, true))
    (hord : ¬(0 < pos ∧ prevU ≤ u))
    (hup : unitProperties[u]? = some up)
    (hov : ¬(wrap64 (v * up.duration) < 0 ∨ total > maxInt64 - wrap64 (v * up.duration)))
    (hrc : rangeRejects rc pos (wrap64 (v * up.duration)) total = true) :
    parseLoop input du pm rc (fuel + 1) pos total prevU =
      .failed (.rangeError pos) := by
  rw [parseLoop]
  simp [hlt, hn, hu, hord, hup, hov, hrc]

theorem parseLoop_step_singleUnitStop (input : List Char) (du : GoUnit)
    (rc : Option RangeChecker) (fuel pos : Nat) (total : Int) (prevU : GoUnit)
    {v : Int} {p : Nat} {u : GoUnit} {e : Nat} {up : UnitDuration} (hlt : pos < input.length)
    (hn : consumeNumber input pos = (v, p, none))
    (hu : (if p < input.length then consumeUnit input p else (du, 0, true)) = (u, e, true))
    (hord : ¬(0 < pos ∧ prevU ≤ u))
    (hup : unitProperties[u]? = some up)
    (hov : ¬(wrap64 (v * up.duration) < 0 ∨ total > maxInt64 - wrap64 (v * up.duration)))
    (hrc : rangeRejects rc pos (wrap64 (v * up.duration)) total = false)
    (hrem : max e p < input.length) :
    parseLoop input du .singleUnit rc (fuel + 1) pos total prevU =
      .failed (.syntaxError .unexpectedCharactersInSingleUnitMode (max e p)) := by
  have he : e < input.length := (max_lt_iff.mp hrem).1
  have hp2 : p < input.length := (max_lt_iff.mp hrem).2
  have hu2 : consumeUnit input p = (u, e, true) := by rwa [if_pos hp2] at hu
  rw [parseLoop]
  simp [hlt, hn, hu2, hord, hup, hov, hrc, he, hp2]

theorem parseLoop_step_continue (input : List Char) (du : GoUnit) (pm : ParseMode)
    (rc : Option RangeChecker) (fuel pos : Nat) (total : Int) (prevU : GoUnit)
    {v : Int} {p : Nat} {u : GoUnit} {e : Nat} {up : UnitDuration} (hlt : pos < input.length)
    (hn : consumeNumber input pos = (v, p, none))
    (hu : (if p < input.length then consumeUnit input p else (du, 0, true)) = (u, e, true))
    (hord : ¬(0 < pos ∧ prevU ≤ u))
    (hup : unitProperties[u]? = some up)
    (hov : ¬(wrap64 (v * up.duration) < 0 ∨ total > maxInt64 - wrap64 (v * up.duration)))
    (hrc : rangeRejects rc pos (wrap64 (v * up.duration)) total = false)
    (hmode : ¬(pm = .singleUnit ∧ max e p < input.length)) :
    parseLoop input du pm rc (fuel + 1) pos total prevU =
      parseLoop input du pm rc fuel (max e p) (total + wrap64 (v * up.duration)) u := by
  have hmode2 : ¬(pm = .singleUnit ∧ e < input.length ∧ p < input.length) :=
    fun h => hmode ⟨h.1, max_lt h.2.1 h.2.2⟩
  rw [parseLoop]
  simp [hlt, hn, hu, hord, hup, hov, hrc, hmode2]

theorem parseLoop_zero_of_lt (input : List Char) (du : GoUnit) (pm : ParseMode)
    (rc : Option RangeChecker) (pos : Nat) (total : Int) (prevU : GoUnit)
    (hlt : pos < input.length) :
    parseLoop input du pm rc 0 pos total prevU = .panicked := by
  rw [parseLoop]
  simp [hlt]

/-- Exhaustive description of one iteration of `parseLoop` when input
remains: exactly one of the nine paths of the loop body is taken. -/
theorem parseLoop_succ_cases (input : List Char) (du : GoUnit) (pm : ParseMode)
    (rc : Option RangeChecker) (fuel pos : Nat) (total : Int) (prevU : GoUnit)
    (hlt : pos < input.length) :
    (∃ v p, consumeNumber input pos = (v, p, some .noNumberFound) ∧
      parseLoop input du pm rc (fuel + 1) pos total prevU =
        .failed (.syntaxError .invalidNumber pos)) ∨
    (∃ v p, consumeNumber input pos = (v, p, some .overflow) ∧
      parseLoop input du pm rc (fuel + 1) pos total prevU =
        .failed (.overflowError pos)) ∨
    (∃ v p u e, consumeNumber input pos = (v, p, none) ∧
      (if p < input.length then consumeUnit input p else (du, 0, true)) = (u, e, false) ∧
      parseLoop input du pm rc (fuel + 1) pos total prevU =
        .failed (.syntaxError .invalidUnit p)) ∨
    (∃ v p u e, consumeNumber input pos = (v, p, none) ∧
      (if p < input.length then consumeUnit input p else (du, 0, true)) = (u, e, true) ∧
      (0 < pos ∧ prevU ≤ u) ∧
      parseLoop input du pm rc (fuel + 1) pos total prevU =
        .failed (.syntaxError .invalidUnitOrder p)) ∨
    (∃ v p u e, consumeNumber input pos = (v, p, none) ∧
      (if p < input.length then consumeUnit input p else (du, 0, true)) = (u, e, true) ∧
      ¬(0 < pos ∧ prevU ≤ u) ∧ unitProperties[u]? = none ∧
      parseLoop input du pm rc (fuel + 1) pos total prevU = .panicked) ∨
    (∃ v p u e up, consumeNumber input pos = (v, p, none) ∧
      (if p < input.length then consumeUnit input p else (du, 0, true)) = (u, e, true) ∧
      ¬(0 < pos ∧ prevU ≤ u) ∧ unitProperties[u]? = some up ∧
      (wrap64 (v * up.duration) < 0 ∨ total > maxInt64 - wrap64 (v * up.duration)) ∧
      parseLoop input du pm rc (fuel + 1) pos total prevU =
        .failed (.overflowError pos)) ∨
    (∃ v p u e up, consumeNumber input pos = (v, p, none) ∧
      (if p < input.length then consumeUnit input p else (du, 0, true)) = (u, e, true) ∧
      ¬(0 < pos ∧ prevU ≤ u) ∧ unitProperties[u]? = some up ∧
      ¬(wrap64 (v * up.duration) < 0 ∨ total > maxInt64 - wrap64 (v * up.duration)) ∧
      rangeRejects rc pos (wrap64 (v * up.duration)) total = true ∧
      parseLoop input du pm rc (fuel + 1) pos total prevU =
        .failed (.rangeError pos)) ∨
    (∃ v p u e up, consumeNumber input pos = (v, p, none) ∧
      (if p < input.length then consumeUnit input p else (du, 0, true)) = (u, e, true) ∧
      ¬(0 < pos ∧ prevU ≤ u) ∧ unitProperties[u]? = some up ∧
      ¬(wrap64 (v * up.duration) < 0 ∨ total > maxInt64 - wrap64 (v * up.duration)) ∧
      rangeRejects rc pos (wrap64 (v * up.duration)) total = false ∧
      (pm = .singleUnit ∧ max e p < input.length) ∧
      parseLoop input du pm rc (fuel + 1) pos total prevU =
        .failed (.syntaxError .unexpectedCharactersInSingleUnitMode (max e p))) ∨
    (∃ v p u e up, consumeNumber input pos = (v, p, none) ∧
      (if p < input.length then consumeUnit input p else (du, 0, true)) = (u, e, true) ∧
      ¬(0 < pos ∧ prevU ≤ u) ∧ unitProperties[u]? = some up ∧
      ¬(wrap64 (v * up.duration) < 0 ∨ total > maxInt64 - wrap64 (v * up.duration)) ∧
      rangeRejects rc pos (wrap64 (v * up.duration)) total = false ∧
      ¬(pm = .singleUnit ∧ max e p < input.length) ∧
      parseLoop input du pm rc (fuel + 1) pos total prevU =
        parseLoop input du pm rc fuel (max e p) (total + wrap64 (v * up.duration)) u) := by
  rcases hn : consumeNumber input pos with ⟨v, p, err⟩
  match err with
  | some .noNumberFound =>
    exact .inl ⟨v, p, rfl, parseLoop_step_noNumber input du pm rc fuel pos total prevU hlt hn⟩
  | some .overflow =>
    exact .inr (.inl ⟨v, p, rfl,
      parseLoop_step_numOverflow input du pm rc fuel pos total prevU hlt hn⟩)
  | none =>
    rcases hu : (if p < input.length then consumeUnit input p else (du, 0, true))
      with ⟨u, e, valid⟩
    match valid with
    | false =>
      exact .inr (.inr (.inl ⟨v, p, u, e, rfl, hu,
        parseLoop_step_invalidUnit input du pm rc fuel pos total prevU hlt hn hu⟩))
    | true =>
      by_cases hord : 0 < pos ∧ prevU ≤ u
      · exact .inr (.inr (.inr (.inl ⟨v, p, u, e, rfl, hu, hord,
          parseLoop_step_unitOrder input du pm rc fuel pos total prevU hlt hn hu
            hord.1 hord.2⟩)))
      · rcases hup : unitProperties[u]? with _ | up
        · exact .inr (.inr (.inr (.inr (.inl ⟨v, p, u, e, rfl, hu, hord, hup,
            parseLoop_step_panic input du pm rc fuel pos total prevU hlt hn hu hord hup⟩))))
        · by_cases hov : wrap64 (v * up.duration) < 0 ∨
              total > maxInt64 - wrap64 (v * up.duration)
          · exact .inr (.inr (.inr (.inr (.inr (.inl ⟨v, p, u, e, up, rfl, hu, hord, hup, hov,
              parseLoop_step_mulOverflow input du pm rc fuel pos total prevU hlt hn hu
                hord hup hov⟩)))))
          · by_cases hrc : rangeRejects rc pos (wrap64 (v * up.duration)) total = true
            · exact .inr (.inr (.inr (.inr (.inr (.inr (.inl
                ⟨v, p, u, e, up, rfl, hu, hord, hup, hov, hrc,
                 parseLoop_step_range input du pm rc fuel pos total prevU hlt hn hu
                   hord hup hov hrc⟩))))))
            · have hrcf : rangeRejects rc pos (wrap64 (v * up.duration)) total = false := by
                simpa using hrc
              by_cases hmode : pm = .singleUnit ∧ max e p < input.length
              · refine .inr (.inr (.inr (.inr (.inr (.inr (.inr (.inl
                  ⟨v, p, u, e, up, rfl, hu, hord, hup, hov, hrcf, hmode, ?_⟩)))))))
                obtain ⟨hpm, hrem⟩ := hmode
                subst hpm
                exact parseLoop_step_singleUnitStop input du rc fuel pos total prevU hlt hn hu
                  hord hup hov hrcf hrem
              · exact .inr (.inr (.inr (.inr (.inr (.inr (.inr (.inr
                  ⟨v, p, u, e, up, rfl, hu, hord, hup, hov, hrcf, hmode,
                   parseLoop_step_continue input du pm rc fuel pos total prevU hlt hn hu
                     hord hup hov hrcf hmode⟩)))))))

theorem unitRes_fst_lt {input : List Char} {p : Nat} {du u : GoUnit} {e : Nat} {b : Bool}
    (hdu : du < 6)
    (hu : (if p < input.length then consumeUnit input p else (du, 0, true)) = (u, e, b)) :
    u < 6 := by
  split at hu
  · have h5 := consumeUnit_fst_le input p
    rw [hu] at h5
    exact Nat.lt_succ_of_le h5
  · cases hu
    exact hdu

/-- With a declared default unit, the loop can never reach the
out-of-range index of `unitProperties` (nor exhaust its fuel when
started with fuel at least `input.length - position`). -/
theorem parseLoop_no_panic (input : List Char) (du : GoUnit) (pm : ParseMode)
    (rc : Option RangeChecker) (hdu : du < 6) :
    ∀ (fuel pos : Nat) (total : Int) (prevU : GoUnit),
      input.length - pos ≤ fuel →
      parseLoop input du pm rc fuel pos total prevU ≠ .panicked := by
  intro fuel
  induction fuel with
  | zero =>
    intro pos total prevU hfuel
    rw [parseLoop_exit input du pm rc 0 pos total prevU (by omega)]
    simp
  | succ fuel ih =>
    intro pos total prevU hfuel
    by_cases hlt : pos < input.length
    · rcases parseLoop_succ_cases input du pm rc fuel pos total prevU hlt with
        ⟨v, p, hn, hres⟩ | ⟨v, p, hn, hres⟩ | ⟨v, p, u, e, hn, hu, hres⟩ |
        ⟨v, p, u, e, hn, hu, hord, hres⟩ | ⟨v, p, u, e, hn, hu, hord, hup, hres⟩ |
        ⟨v, p, u, e, up, hn, hu, hord, hup, hov, hres⟩ |
        ⟨v, p, u, e, up, hn, hu, hord, hup, hov, hrc2, hres⟩ |
        ⟨v, p, u, e, up, hn, hu, hord, hup, hov, hrc2, hmode, hres⟩ |
        ⟨v, p, u, e, up, hn, hu, hord, hup, hov, hrc2, hmode, hres⟩
      · rw [hres]; simp
      · rw [hres]; simp
      · rw [hres]; simp
      · rw [hres]; simp
      · rw [unitProperties_getElem?_of_lt (unitRes_fst_lt hdu hu)] at hup
        exact absurd hup (by simp)
      · rw [hres]; simp
      · rw [hres]; simp
      · rw [hres]; simp
      · rw [hres]
        have hp : pos < p := consumeNumber_none_lt hn
        have hm : p ≤ max e p := le_max_right e p
        exact ih (max e p) (total + wrap64 (v * up.duration)) u (by omega)
    · rw [parseLoop_exit input du pm rc _ pos total prevU (by omega)]
      simp

/-- A successful parse keeps the running total inside `[0, maxInt64]`:
the loop only ever adds a non-negative composite that the overflow
check has bounded. -/
theorem parseLoop_ok_bounds (input : List Char) (du : GoUnit) (pm : ParseMode)
    (rc : Option RangeChecker) :
    ∀ (fuel pos : Nat) (total : Int) (prevU : GoUnit) (d : Int),
      0 ≤ total → total ≤ maxInt64 →
      parseLoop input du pm rc fuel pos total prevU = .ok d →
      0 ≤ d ∧ d ≤ maxInt64 := by
  intro fuel
  induction fuel with
  | zero =>
    intro pos total prevU d h0 h1 hok
    by_cases hlt : pos < input.length
    · rw [parseLoop_zero_of_lt input du pm rc pos total prevU hlt] at hok
      exact absurd hok (by simp)
    · rw [parseLoop_exit input du pm rc 0 pos total prevU (by omega)] at hok
      cases hok
      exact ⟨h0, h1⟩
  | succ fuel ih =>
    intro pos total prevU d h0 h1 hok
    by_cases hlt : pos < input.length
    · rcases parseLoop_succ_cases input du pm rc fuel pos total prevU hlt with
        ⟨v, p, hn, hres⟩ | ⟨v, p, hn, hres⟩ | ⟨v, p, u, e, hn, hu, hres⟩ |
        ⟨v, p, u, e, hn, hu, hord, hres⟩ | ⟨v, p, u, e, hn, hu, hord, hup, hres⟩ |
        ⟨v, p, u, e, up, hn, hu, hord, hup, hov, hres⟩ |
        ⟨v, p, u, e, up, hn, hu, hord, hup, hov, hrc2, hres⟩ |
        ⟨v, p, u, e, up, hn, hu, hord, hup, hov, hrc2, hmode, hres⟩ |
        ⟨v, p, u, e, up, hn, hu, hord, hup, hov, hrc2, hmode, hres⟩ <;>
        rw [hres] at hok
      · exact absurd hok (by simp)
      · exact absurd hok (by simp)
      · exact absurd hok (by simp)
      · exact absurd hok (by simp)
      · exact absurd hok (by simp)
      · exact absurd hok (by simp)
      · exact absurd hok (by simp)
      · exact absurd hok (by simp)
      · push_neg at hov
        exact ih _ _ u d (by omega) (by omega) hok
    · rw [parseLoop_exit input du pm rc _ pos total prevU (by omega)] at hok
      cases hok
      exact ⟨h0, h1⟩


theorem consumeNumberLoop_overflow_lt (rest : List Char) (q : Nat) {v : Int} {p : Nat}
    (h : consumeNumberLoop rest q 0 = (v, p, some .overflow)) : q < p := by
  cases rest with
  | nil => simp [consumeNumberLoop] at h
  | cons c rest =>
    simp only [consumeNumberLoop] at h
    split at h
    · rw [if_neg (by norm_num [maxInt64Div10])] at h
      have hle := consumeNumberLoop_le rest (q + 1) (0 * 10 + ((c.toNat : Int) - ('0'.toNat : Int)))
      rw [h] at hle
      simp only at hle
      omega
    · simp at h

theorem consumeNumber_overflow_lt {input : List Char} {start : Nat} {v : Int} {p : Nat}
    (h : consumeNumber input start = (v, p, some .overflow)) : start < p := by
  unfold consumeNumber at h
  rcases hl : consumeNumberLoop (input.drop start) start 0 with ⟨v2, p2, e2⟩
  rw [hl] at h
  match e2 with
  | none =>
    simp only at h
    split at h <;> simp_all
  | some .noNumberFound => simp at h
  | some .overflow =>
    simp only [Prod.mk.injEq] at h
    obtain ⟨-, rfl, -⟩ := h
    exact consumeNumberLoop_overflow_lt _ _ hl

/-! ## Claim theorems -/

/-- C1 (code bug): the overflow check of `ParseDuration` relies on the
wrapped product turning negative, which misses products that wrap past
2^64 back into positive range.  On input "213504d" the exact product
213504 * 86400000000000 exceeds `maxInt64`, yet the parse succeeds and
returns the wrapped (wrong) total 1526290448384 instead of an
OverflowError at offset 0. -/
theorem c1_overflow_silent_wraparound :
    ParseDuration "213504d" Millisecond .multiUnit (some NoRangeChecking) =
      .ok 1526290448384 ∧
    maxInt64 < 213504 * 86400000000000 ∧
    wrap64 (213504 * 86400000000000) = 1526290448384 := by
  refine ⟨by decide, by decide, by decide⟩

/-- C3 (counterexample): on "100.d" the parser returns
SyntaxError/InvalidUnit at offset 3, not SyntaxError/InvalidNumber:
the digit run "100" completes successfully, so the dot is rejected by
the unit lexer, not the number lexer. -/
theorem c3_counterexample :
    ParseDuration "100.d" Millisecond .multiUnit (some NoRangeChecking) =
      .failed (.syntaxError .invalidUnit 3) ∧
    ¬ ParseDuration "100.d" Millisecond .multiUnit (some NoRangeChecking) =
      .failed (.syntaxError .invalidNumber 3) := by
  refine ⟨by decide, by decide⟩

/-- C3 (amended): `ParseDuration "100.d"` in multi-unit mode with
millisecond default and no range checking fails with a SyntaxError
whose cause is InvalidUnit at 0-based offset 3, the offset of the
dot. -/
theorem c3_amended_invalid_unit_at_3 :
    ParseDuration "100.d" Millisecond .multiUnit (some NoRangeChecking) =
      .failed (.syntaxError .invalidUnit 3) := by
  decide

/-- C4 (counterexample): the parser accepts no whitespace between
components, so "1d 5m 1h" fails at the first space (offset 2) with
SyntaxError/InvalidNumber; it does not return InvalidUnitOrder at
offset 6. -/
theorem c4_counterexample :
    ParseDuration "1d 5m 1h" Millisecond .multiUnit (some NoRangeChecking) =
      .failed (.syntaxError .invalidNumber 2) ∧
    ¬ ParseDuration "1d 5m 1h" Millisecond .multiUnit (some NoRangeChecking) =
      .failed (.syntaxError .invalidUnitOrder 6) := by
  refine ⟨by decide, by decide⟩

/-- C4 (amended): `ParseDuration "1d 5m 1h"` in multi-unit mode with
millisecond default and no range checking fails with
SyntaxError/InvalidNumber at 0-based offset 2 (the first space):
whitespace separators are not accepted. -/
theorem c4_amended_invalid_number_at_2 :
    ParseDuration "1d 5m 1h" Millisecond .multiUnit (some NoRangeChecking) =
      .failed (.syntaxError .invalidNumber 2) := by
  decide

/-- C9: the empty input parses to a zero duration with no error, for
every default unit, parse mode and range checker. -/
theorem c9_empty_input_ok_zero (du : GoUnit) (pm : ParseMode) (rc : Option RangeChecker) :
    ParseDuration "" du pm rc = .ok 0 := rfl

/-- C10: with a default unit among the six declared constants the
parse never panics (every `unitProperties` index is in bounds); the
precondition is necessary, because any out-of-range default unit and a
bare-number input such as "5" make the indexing panic. -/
theorem c10_unit_indexing_safety :
    (∀ (s : String) (du : GoUnit) (pm : ParseMode) (rc : Option RangeChecker),
      du < 6 → ParseDuration s du pm rc ≠ .panicked) ∧
    (∀ du : GoUnit, 6 ≤ du →
      ParseDuration "5" du .multiUnit (some NoRangeChecking) = .panicked) := by
  constructor
  · intro s du pm rc hdu
    exact parseLoop_no_panic s.data du pm rc hdu s.data.length 0 0 Day (by omega)
  · intro du hdu
    have hu : (if 1 < ("5".data).length then consumeUnit "5".data 1 else (du, 0, true)) =
        (du, 0, true) := by
      rw [if_neg (by decide)]
    have h := parseLoop_step_panic "5".data du .multiUnit (some NoRangeChecking) 0 0 0 Day
      (by decide) (by decide : consumeNumber "5".data 0 = (5, 1, none)) hu
      (by simp) (unitProperties_getElem?_of_ge hdu)
    exact h

/-- C10 witness: the safety direction applied at `"1h"` with the
declared default `Millisecond`, and the necessity direction applied at
default unit 6. -/
theorem c10_witness :
    ParseDuration "1h" Millisecond .multiUnit (some NoRangeChecking) ≠ .panicked ∧
    ParseDuration "5" 6 .multiUnit (some NoRangeChecking) = .panicked :=
  ⟨c10_unit_indexing_safety.1 "1h" Millisecond .multiUnit (some NoRangeChecking) (by decide),
   c10_unit_indexing_safety.2 6 (by decide)⟩


/-- C7: when the digit accumulation of a component overflows the
signed 64-bit range, the loop reports an OverflowError positioned at
the start offset of the digit run, not at the strictly later digit at
which the overflow was detected. -/
theorem c7_overflow_position_run_start (input : List Char) (du : GoUnit) (pm : ParseMode)
    (rc : Option RangeChecker) (fuel pos : Nat) (total : Int) (prevU : GoUnit)
    (v : Int) (detectPos : Nat) (hlt : pos < input.length)
    (hn : consumeNumber input pos = (v, detectPos, some .overflow)) :
    parseLoop input du pm rc (fuel + 1) pos total prevU = .failed (.overflowError pos) ∧
    pos < detectPos :=
  ⟨parseLoop_step_numOverflow input du pm rc fuel pos total prevU hlt hn,
   consumeNumber_overflow_lt hn⟩

/-- C7 witness: on "99999999999999999999s" the overflow is detected at
offset 18 but reported at the start of the run, offset 0. -/
theorem c7_witness :
    ParseDuration "99999999999999999999s" Millisecond .multiUnit (some NoRangeChecking) =
      .failed (.overflowError 0) ∧ (0 : Nat) < 18 :=
  c7_overflow_position_run_start "99999999999999999999s".data Millisecond .multiUnit
    (some NoRangeChecking) 20 0 0 Day 0 18 (by decide) (by decide)

/-- C8: single-unit mode accepts exactly one component: "1h1m" fails
with UnexpectedCharactersInSingleUnitMode at offset 2 (where the
second component starts) for every default unit, "1h" succeeds, and in
general a component that completes with input still remaining makes
the loop fail at the updated cursor. -/
theorem c8_single_unit_mode :
    (∀ du : GoUnit, ParseDuration "1h1m" du .singleUnit (some NoRangeChecking) =
      .failed (.syntaxError .unexpectedCharactersInSingleUnitMode 2)) ∧
    (∀ du : GoUnit, ParseDuration "1h" du .singleUnit (some NoRangeChecking) =
      .ok 3600000000000) ∧
    (∀ (input : List Char) (du : GoUnit) (rc : Option RangeChecker) (fuel pos : Nat)
        (total : Int) (prevU : GoUnit) (v : Int) (p : Nat) (u : GoUnit) (e : Nat)
        (up : UnitDuration),
      pos < input.length →
      consumeNumber input pos = (v, p, none) →
      (if p < input.length then consumeUnit input p else (du, 0, true)) = (u, e, true) →
      ¬(0 < pos ∧ prevU ≤ u) →
      unitProperties[u]? = some up →
      ¬(wrap64 (v * up.duration) < 0 ∨ total > maxInt64 - wrap64 (v * up.duration)) →
      rangeRejects rc pos (wrap64 (v * up.duration)) total = false →
      max e p < input.length →
      parseLoop input du .singleUnit rc (fuel + 1) pos total prevU =
        .failed (.syntaxError .unexpectedCharactersInSingleUnitMode (max e p))) := by
  refine ⟨?_, ?_, ?_⟩
  · intro du
    have hu : (if 1 < ("1h1m".data).length then consumeUnit "1h1m".data 1
        else (du, 0, true)) = (Hour, 2, true) := by
      rw [if_pos (by decide : 1 < ("1h1m".data).length)]
      decide
    exact parseLoop_step_singleUnitStop "1h1m".data du (some NoRangeChecking) 2 0 0 Day
      (by decide) (by decide : consumeNumber "1h1m".data 0 = (1, 1, none)) hu
      (by simp) (by decide : unitProperties[Hour]? = some ⟨Hour, 3600000000000⟩)
      (by decide) (by decide) (by decide)
  · intro du
    have hu : (if 1 < ("1h".data).length then consumeUnit "1h".data 1
        else (du, 0, true)) = (Hour, 2, true) := by
      rw [if_pos (by decide : 1 < ("1h".data).length)]
      decide
    have hstep := parseLoop_step_continue "1h".data du .singleUnit (some NoRangeChecking)
      1 0 0 Day (by decide) (by decide : consumeNumber "1h".data 0 = (1, 1, none)) hu
      (by simp) (by decide : unitProperties[Hour]? = some ⟨Hour, 3600000000000⟩)
      (by decide) (by decide) (by decide)
    have hexit := parseLoop_exit "1h".data du .singleUnit (some NoRangeChecking)
      1 (max 2 1) (0 + wrap64 (1 * (3600000000000 : Int))) Hour (by decide)
    calc ParseDuration "1h" du .singleUnit (some NoRangeChecking)
        = parseLoop "1h".data du .singleUnit (some NoRangeChecking) (1 + 1) 0 0 Day := rfl
      _ = parseLoop "1h".data du .singleUnit (some NoRangeChecking) 1 (max 2 1)
            (0 + wrap64 (1 * (3600000000000 : Int))) Hour := hstep
      _ = .ok (0 + wrap64 (1 * (3600000000000 : Int))) := hexit
      _ = .ok 3600000000000 := by decide
  · intro input du rc fuel pos total prevU v p u e up hlt hn hu hord hup hov hrc hrem
    exact parseLoop_step_singleUnitStop input du rc fuel pos total prevU hlt hn hu
      hord hup hov hrc hrem

/-- C8 witness: the general trailing-input rule applied to "1h1m" at
position 0 with total 0 and fuel 3. -/
theorem c8_witness :
    parseLoop "1h1m".data Second .singleUnit none (3 + 1) 0 0 Day =
      .failed (.syntaxError .unexpectedCharactersInSingleUnitMode (max 2 1)) := by
  have hu : (if 1 < ("1h1m".data).length then consumeUnit "1h1m".data 1
      else (Second, 0, true)) = (Hour, 2, true) := by
    rw [if_pos (by decide : 1 < ("1h1m".data).length)]
    decide
  exact c8_single_unit_mode.2.2 "1h1m".data Second none 3 0 0 Day 1 1 Hour 2
    ⟨Hour, 3600000000000⟩ (by decide) (by decide) hu (by simp) (by decide)
    (by decide) (by decide) (by decide)


/-- C5: in multi-unit mode a component (after the first) whose unit is
of equal or greater magnitude than the previous unit makes the loop
fail with SyntaxError/InvalidUnitOrder at the unit symbol start
offset; conversely, any parse the loop accepts has its lexed units in
strictly descending magnitude order (`UnitsDescending`), and in
particular so does every input `ParseDuration` accepts in multi-unit
mode. -/
theorem c5_unit_order :
    (∀ (input : List Char) (du : GoUnit) (rc : Option RangeChecker) (fuel pos : Nat)
        (total : Int) (prevU : GoUnit) (v : Int) (p : Nat) (u : GoUnit) (e : Nat),
      pos < input.length →
      consumeNumber input pos = (v, p, none) →
      (if p < input.length then consumeUnit input p else (du, 0, true)) = (u, e, true) →
      0 < pos → prevU ≤ u →
      parseLoop input du .multiUnit rc (fuel + 1) pos total prevU =
        .failed (.syntaxError .invalidUnitOrder p)) ∧
    (∀ (input : List Char) (du : GoUnit) (rc : Option RangeChecker) (fuel pos : Nat)
        (total : Int) (prevU : GoUnit) (d : Int),
      parseLoop input du .multiUnit rc fuel pos total prevU = .ok d →
      UnitsDescending input du pos prevU) ∧
    (∀ (s : String) (du : GoUnit) (rc : Option RangeChecker) (d : Int),
      ParseDuration s du .multiUnit rc = .ok d →
      UnitsDescending s.data du 0 Day) := by
  have hdesc : ∀ (input : List Char) (du : GoUnit) (rc : Option RangeChecker)
      (fuel pos : Nat) (total : Int) (prevU : GoUnit) (d : Int),
      parseLoop input du .multiUnit rc fuel pos total prevU = .ok d →
      UnitsDescending input du pos prevU := by
    intro input du rc fuel
    induction fuel with
    | zero =>
      intro pos total prevU d hok
      by_cases hlt : pos < input.length
      · rw [parseLoop_zero_of_lt input du .multiUnit rc pos total prevU hlt] at hok
        exact absurd hok (by simp)
      · exact .done pos prevU (by omega)
    | succ fuel ih =>
      intro pos total prevU d hok
      by_cases hlt : pos < input.length
      · rcases parseLoop_succ_cases input du .multiUnit rc fuel pos total prevU hlt with
          ⟨v, p, hn, hres⟩ | ⟨v, p, hn, hres⟩ | ⟨v, p, u, e, hn, hu, hres⟩ |
          ⟨v, p, u, e, hn, hu, hord, hres⟩ | ⟨v, p, u, e, hn, hu, hord, hup, hres⟩ |
          ⟨v, p, u, e, up, hn, hu, hord, hup, hov, hres⟩ |
          ⟨v, p, u, e, up, hn, hu, hord, hup, hov, hrc2, hres⟩ |
          ⟨v, p, u, e, up, hn, hu, hord, hup, hov, hrc2, hmode, hres⟩ |
          ⟨v, p, u, e, up, hn, hu, hord, hup, hov, hrc2, hmode, hres⟩ <;>
          rw [hres] at hok
        · exact absurd hok (by simp)
        · exact absurd hok (by simp)
        · exact absurd hok (by simp)
        · exact absurd hok (by simp)
        · exact absurd hok (by simp)
        · exact absurd hok (by simp)
        · exact absurd hok (by simp)
        · exact absurd hok (by simp)
        · refine .step pos prevU v p u e hlt hn hu ?_ (ih (max e p) _ u d hok)
          intro hpos
          by_contra hle
          exact hord ⟨hpos, le_of_not_lt hle⟩
      · exact .done pos prevU (by omega)
  refine ⟨?_, hdesc, ?_⟩
  · intro input du rc fuel pos total prevU v p u e hlt hn hu hpos hord
    exact parseLoop_step_unitOrder input du .multiUnit rc fuel pos total prevU hlt hn hu
      hpos hord
  · intro s du rc d hok
    exact hdesc s.data du rc s.data.length 0 0 Day d hok

/-- C5 witness: the rejection direction applied to "5m1h" at the
second component (offset 2, unit offset 3), and the descent direction
applied to the accepted parse of "5m". -/
theorem c5_witness :
    parseLoop "5m1h".data Millisecond .multiUnit (some NoRangeChecking) (1 + 1) 2
        300000000000 Minute =
      .failed (.syntaxError .invalidUnitOrder 3) ∧
    UnitsDescending "5m".data Millisecond 0 Day := by
  constructor
  · have hu : (if 3 < ("5m1h".data).length then consumeUnit "5m1h".data 3
        else (Millisecond, 0, true)) = (Hour, 4, true) := by
      rw [if_pos (by decide : 3 < ("5m1h".data).length)]
      decide
    exact c5_unit_order.1 "5m1h".data Millisecond (some NoRangeChecking) 1 2
      300000000000 Minute 1 3 Hour 4 (by decide)
      (by decide : consumeNumber "5m1h".data 2 = (1, 3, none)) hu (by decide) (by decide)
  · exact c5_unit_order.2.2 "5m" Millisecond (some NoRangeChecking)
      300000000000 (by decide)

/-- C6: the overflow check precedes the range check: whenever the
overflow condition holds at a component, the loop fails with an
OverflowError there for every range checker (so the checker is never
consulted and no RangeError is produced); conversely a RangeError -
from the loop or from `ParseDuration` itself - is only ever produced
at a component whose overflow check passed and whose checker rejected.
At most one error per call is inherent in the single `ParseResult`
return value. -/
theorem c6_overflow_precedes_range :
    (∀ (input : List Char) (du : GoUnit) (pm : ParseMode) (rc : Option RangeChecker)
        (fuel pos : Nat) (total : Int) (prevU : GoUnit)
        (v : Int) (p : Nat) (u : GoUnit) (e : Nat) (up : UnitDuration),
      pos < input.length →
      consumeNumber input pos = (v, p, none) →
      (if p < input.length then consumeUnit input p else (du, 0, true)) = (u, e, true) →
      ¬(0 < pos ∧ prevU ≤ u) →
      unitProperties[u]? = some up →
      (wrap64 (v * up.duration) < 0 ∨ total > maxInt64 - wrap64 (v * up.duration)) →
      parseLoop input du pm rc (fuel + 1) pos total prevU =
        .failed (.overflowError pos)) ∧
    (∀ (input : List Char) (du : GoUnit) (pm : ParseMode) (rc : Option RangeChecker)
        (fuel pos : Nat) (total : Int) (prevU : GoUnit) (errPos : Nat),
      parseLoop input du pm rc fuel pos total prevU = .failed (.rangeError errPos) →
      ∃ (total2 : Int) (prevU2 : GoUnit) (v : Int) (p : Nat) (u : GoUnit) (e : Nat)
          (up : UnitDuration),
        errPos < input.length ∧
        consumeNumber input errPos = (v, p, none) ∧
        (if p < input.length then consumeUnit input p else (du, 0, true)) = (u, e, true) ∧
        ¬(0 < errPos ∧ prevU2 ≤ u) ∧
        unitProperties[u]? = some up ∧
        ¬(wrap64 (v * up.duration) < 0 ∨ total2 > maxInt64 - wrap64 (v * up.duration)) ∧
        rangeRejects rc errPos (wrap64 (v * up.duration)) total2 = true) ∧
    (∀ (s : String) (du : GoUnit) (pm : ParseMode) (rc : Option RangeChecker)
        (errPos : Nat),
      ParseDuration s du pm rc = .failed (.rangeError errPos) →
      ∃ (total2 : Int) (prevU2 : GoUnit) (v : Int) (p : Nat) (u : GoUnit) (e : Nat)
          (up : UnitDuration),
        errPos < s.data.length ∧
        consumeNumber s.data errPos = (v, p, none) ∧
        (if p < s.data.length then consumeUnit s.data p else (du, 0, true)) = (u, e, true) ∧
        ¬(0 < errPos ∧ prevU2 ≤ u) ∧
        unitProperties[u]? = some up ∧
        ¬(wrap64 (v * up.duration) < 0 ∨ total2 > maxInt64 - wrap64 (v * up.duration)) ∧
        rangeRejects rc errPos (wrap64 (v * up.duration)) total2 = true) := by
  have hinv : ∀ (input : List Char) (du : GoUnit) (pm : ParseMode)
      (rc : Option RangeChecker) (fuel pos : Nat) (total : Int) (prevU : GoUnit)
      (errPos : Nat),
      parseLoop input du pm rc fuel pos total prevU = .failed (.rangeError errPos) →
      ∃ (total2 : Int) (prevU2 : GoUnit) (v : Int) (p : Nat) (u : GoUnit) (e : Nat)
          (up : UnitDuration),
        errPos < input.length ∧
        consumeNumber input errPos = (v, p, none) ∧
        (if p < input.length then consumeUnit input p else (du, 0, true)) = (u, e, true) ∧
        ¬(0 < errPos ∧ prevU2 ≤ u) ∧
        unitProperties[u]? = some up ∧
        ¬(wrap64 (v * up.duration) < 0 ∨ total2 > maxInt64 - wrap64 (v * up.duration)) ∧
        rangeRejects rc errPos (wrap64 (v * up.duration)) total2 = true := by
    intro input du pm rc fuel
    induction fuel with
    | zero =>
      intro pos total prevU errPos hok
      by_cases hlt : pos < input.length
      · rw [parseLoop_zero_of_lt input du pm rc pos total prevU hlt] at hok
        exact absurd hok (by simp)
      · rw [parseLoop_exit input du pm rc 0 pos total prevU (by omega)] at hok
        exact absurd hok (by simp)
    | succ fuel ih =>
      intro pos total prevU errPos hok
      by_cases hlt : pos < input.length
      · rcases parseLoop_succ_cases input du pm rc fuel pos total prevU hlt with
          ⟨v, p, hn, hres⟩ | ⟨v, p, hn, hres⟩ | ⟨v, p, u, e, hn, hu, hres⟩ |
          ⟨v, p, u, e, hn, hu, hord, hres⟩ | ⟨v, p, u, e, hn, hu, hord, hup, hres⟩ |
          ⟨v, p, u, e, up, hn, hu, hord, hup, hov, hres⟩ |
          ⟨v, p, u, e, up, hn, hu, hord, hup, hov, hrc2, hres⟩ |
          ⟨v, p, u, e, up, hn, hu, hord, hup, hov, hrc2, hmode, hres⟩ |
          ⟨v, p, u, e, up, hn, hu, hord, hup, hov, hrc2, hmode, hres⟩ <;>
          rw [hres] at hok
        · exact absurd hok (by simp)
        · exact absurd hok (by simp)
        · exact absurd hok (by simp)
        · exact absurd hok (by simp)
        · exact absurd hok (by simp)
        · exact absurd hok (by simp)
        · have hpe : errPos = pos := by
            have := hok
            simp only [ParseResult.failed.injEq, ParseError.rangeError.injEq] at this
            omega
          subst hpe
          exact ⟨total, prevU, v, p, u, e, up, hlt, hn, hu, hord, hup, hov, hrc2⟩
        · exact absurd hok (by simp)
        · exact ih (max e p) _ u errPos hok
      · rw [parseLoop_exit input du pm rc _ pos total prevU (by omega)] at hok
        exact absurd hok (by simp)
  refine ⟨?_, hinv, ?_⟩
  · intro input du pm rc fuel pos total prevU v p u e up hlt hn hu hord hup hov
    exact parseLoop_step_mulOverflow input du pm rc fuel pos total prevU hlt hn hu
      hord hup hov
  · intro s du pm rc errPos hok
    exact hinv s.data du pm rc s.data.length 0 0 Day errPos hok

/-- C6 witness: the precedence direction applied on "106752d" (whose
wrapped product is negative) under an always-rejecting checker, and
the RangeError inversion applied to the rejected parse of "1h". -/
theorem c6_witness :
    parseLoop "106752d".data Millisecond .multiUnit (some fun _ _ _ => false) (6 + 1) 0 0
        Day =
      .failed (.overflowError 0) ∧
    ∃ (total2 : Int) (prevU2 : GoUnit) (v : Int) (p : Nat) (u : GoUnit) (e : Nat)
        (up : UnitDuration),
      (0 : Nat) < ("1h".data).length ∧
      consumeNumber "1h".data 0 = (v, p, none) ∧
      (if p < ("1h".data).length then consumeUnit "1h".data p
        else (Millisecond, 0, true)) = (u, e, true) ∧
      ¬(0 < (0 : Nat) ∧ prevU2 ≤ u) ∧
      unitProperties[u]? = some up ∧
      ¬(wrap64 (v * up.duration) < 0 ∨ total2 > maxInt64 - wrap64 (v * up.duration)) ∧
      rangeRejects (some fun _ _ _ => false) 0 (wrap64 (v * up.duration)) total2 = true := by
  constructor
  · have hu : (if 6 < ("106752d".data).length then consumeUnit "106752d".data 6
        else (Millisecond, 0, true)) = (Day, 7, true) := by
      rw [if_pos (by decide : 6 < ("106752d".data).length)]
      decide
    exact c6_overflow_precedes_range.1 "106752d".data Millisecond .multiUnit
      (some fun _ _ _ => false) 6 0 0 Day 106752 6 Day 7 ⟨Day, 86400000000000⟩
      (by decide) (by decide : consumeNumber "106752d".data 0 = (106752, 6, none)) hu
      (by simp) (by decide) (by decide)
  · exact c6_overflow_precedes_range.2.1 "1h".data Millisecond .multiUnit
      (some fun _ _ _ => false) 2 0 0 Day 0 (by decide)


/-! ### Decimal rendering lemmas -/

theorem isDigitChar_toNat_bounds {c : Char} (h : isDigitChar c = true) :
    48 ≤ c.toNat ∧ c.toNat ≤ 57 := by
  simp only [isDigitChar, Bool.and_eq_true, decide_eq_true_iff] at h
  obtain ⟨h1, h2⟩ := h
  rw [Char.le_def, UInt32.le_def, BitVec.le_def] at h1 h2
  simp only [Char.toNat, UInt32.toNat] at h1 h2 ⊢
  exact ⟨h1, h2⟩

theorem digitChar_isDigit {m : Nat} (h : m < 10) : isDigitChar (digitChar m) = true := by
  interval_cases m <;> decide

theorem digitChar_toNat {m : Nat} (h : m < 10) :
    ((digitChar m).toNat : Int) - 48 = m := by
  interval_cases m <;> decide

theorem natDigitsList_ne_nil (n : Nat) : natDigitsList n ≠ [] := by
  rw [natDigitsList]
  split
  · simp
  · exact List.append_ne_nil_of_right_ne_nil _ (by simp)

theorem natDigitsList_digits (n : Nat) : ∀ c ∈ natDigitsList n, isDigitChar c = true := by
  induction n using Nat.strong_induction_on with
  | _ n ih =>
    rw [natDigitsList]
    split
    · next h =>
      intro c hc
      simp only [List.mem_singleton] at hc
      subst hc
      exact digitChar_isDigit h
    · next h =>
      intro c hc
      rcases List.mem_append.mp hc with hc | hc
      · exact ih (n / 10) (Nat.div_lt_self (by omega) (by omega)) c hc
      · simp only [List.mem_singleton] at hc
        subst hc
        exact digitChar_isDigit (Nat.mod_lt n (by omega))

theorem digitsVal_append (a : Int) (xs ys : List Char) :
    digitsVal a (xs ++ ys) = digitsVal (digitsVal a xs) ys := by
  simp [digitsVal, List.foldl_append]

theorem digitsVal_natDigitsList (n : Nat) : digitsVal 0 (natDigitsList n) = (n : Int) := by
  induction n using Nat.strong_induction_on with
  | _ n ih =>
    rw [natDigitsList]
    split
    · next h =>
      simp only [digitsVal, List.foldl_cons, List.foldl_nil]
      rw [zero_mul, zero_add, digitChar_toNat h]
    · next h =>
      rw [digitsVal_append, ih (n / 10) (Nat.div_lt_self (by omega) (by omega))]
      simp only [digitsVal, List.foldl_cons, List.foldl_nil]
      rw [digitChar_toNat (Nat.mod_lt n (by omega))]
      push_cast
      omega

theorem natToCharsCore_succ (fuel n : Nat) (acc : List Char) :
    natToCharsCore (fuel + 1) n acc =
      if n / 10 = 0 then digitChar (n % 10) :: acc
      else natToCharsCore fuel (n / 10) (digitChar (n % 10) :: acc) := rfl

theorem natToCharsCore_eq : ∀ (fuel n : Nat) (acc : List Char), n < 10 ^ (fuel + 1) →
    natToCharsCore (fuel + 1) n acc = natDigitsList n ++ acc := by
  intro fuel
  induction fuel with
  | zero =>
    intro n acc h
    norm_num at h
    rw [natToCharsCore_succ, if_pos (by omega), natDigitsList, dif_pos h,
      Nat.mod_eq_of_lt h]
    rfl
  | succ f ih =>
    intro n acc h
    by_cases h10 : n < 10
    · rw [natToCharsCore_succ, if_pos (by omega), natDigitsList, dif_pos h10,
        Nat.mod_eq_of_lt h10]
      rfl
    · have hdiv : n / 10 < 10 ^ (f + 1) := by
        apply Nat.div_lt_of_lt_mul
        rw [pow_succ] at h
        omega
      rw [natToCharsCore_succ, if_neg (by omega), ih (n / 10) (digitChar (n % 10) :: acc) hdiv]
      conv_rhs => rw [natDigitsList]
      rw [dif_neg h10]
      simp

theorem natToChars_eq (n : Nat) : natToChars n = natDigitsList n := by
  have h : n < 10 ^ (n + 1) :=
    lt_of_lt_of_le (Nat.lt_pow_self (by norm_num) n)
      (Nat.pow_le_pow_right (by norm_num) (by omega))
  rw [natToChars, natToCharsCore_eq n n [] h]
  simp

theorem natToChars_ne_nil (n : Nat) : natToChars n ≠ [] := by
  rw [natToChars_eq]
  exact natDigitsList_ne_nil n

theorem natToChars_digits (n : Nat) : ∀ c ∈ natToChars n, isDigitChar c = true := by
  rw [natToChars_eq]
  exact natDigitsList_digits n

theorem digitsVal_natToChars (n : Nat) : digitsVal 0 (natToChars n) = (n : Int) := by
  rw [natToChars_eq]
  exact digitsVal_natDigitsList n

theorem natToChars_head_digit (n : Nat) :
    ∀ c, (natToChars n).head? = some c → isDigitChar c = true := by
  intro c hc
  have hne := natToChars_ne_nil n
  rw [List.head?_eq_head hne] at hc
  cases hc
  exact natToChars_digits n _ (List.head_mem hne)


/-! ### Lexing a rendered digit run and unit symbol -/

theorem zero_char_toNat_int : ('0'.toNat : Int) = 48 := rfl

theorem le_digitsVal (ds : List Char) : ∀ (a : Int), 0 ≤ a →
    (∀ c ∈ ds, isDigitChar c = true) → a ≤ digitsVal a ds := by
  induction ds with
  | nil => intro a _ _; simp [digitsVal]
  | cons c ds ih =>
    intro a ha hds
    have hc := isDigitChar_toNat_bounds (hds c (by simp))
    have step : a ≤ a * 10 + ((c.toNat : Int) - 48) := by omega
    calc a ≤ a * 10 + ((c.toNat : Int) - 48) := step
      _ ≤ digitsVal (a * 10 + ((c.toNat : Int) - 48)) ds :=
          ih _ (by omega) (fun c hc => hds c (by simp [hc]))
      _ = digitsVal a (c :: ds) := rfl

theorem consumeNumberLoop_run : ∀ (ds rest : List Char) (pos : Nat) (a : Int),
    (∀ c ∈ ds, isDigitChar c = true) →
    (∀ c, rest.head? = some c → isDigitChar c = false) →
    0 ≤ a →
    digitsVal a ds ≤ maxInt64 →
    consumeNumberLoop (ds ++ rest) pos a = (digitsVal a ds, pos + ds.length, none) := by
  intro ds
  induction ds with
  | nil =>
    intro rest pos a _ hrest ha hb
    cases rest with
    | nil => simp [consumeNumberLoop, digitsVal]
    | cons c rest =>
      simp only [List.nil_append, consumeNumberLoop]
      rw [if_neg (by simp [hrest c rfl])]
      simp [digitsVal]
  | cons c ds ih =>
    intro rest pos a hds hrest ha hb
    have hc : isDigitChar c = true := hds c (by simp)
    have hcb := isDigitChar_toNat_bounds hc
    have hval : digitsVal a (c :: ds) = digitsVal (a * 10 + ((c.toNat : Int) - 48)) ds := rfl
    have ha2 : 0 ≤ a * 10 + ((c.toNat : Int) - 48) := by omega
    have hb2 : digitsVal (a * 10 + ((c.toNat : Int) - 48)) ds ≤ maxInt64 := by
      rw [← hval]; exact hb
    have hprefix : a * 10 + ((c.toNat : Int) - 48) ≤ maxInt64 :=
      le_trans (le_digitsVal ds _ ha2 (fun x hx => hds x (by simp [hx]))) hb2
    have hguard : ¬((a > maxInt64Div10 ∨
        (a = maxInt64Div10 ∧ (c.toNat : Int) - ('0'.toNat : Int) > 7))) := by
      rw [zero_char_toNat_int]
      simp only [maxInt64Div10] at *
      simp only [maxInt64] at hprefix
      omega
    simp only [List.cons_append, consumeNumberLoop, hc, if_true]
    rw [if_neg hguard]
    rw [zero_char_toNat_int]
    simp only [List.append_eq]
    rw [ih rest (pos + 1) (a * 10 + ((c.toNat : Int) - 48))
      (fun x hx => hds x (by simp [hx])) hrest ha2 hb2]
    rw [hval]
    simp only [List.length_cons, Prod.mk.injEq]
    exact ⟨trivial, by omega, trivial⟩

theorem consumeNumber_run (pre ds rest : List Char)
    (hne : ds ≠ [])
    (hds : ∀ c ∈ ds, isDigitChar c = true)
    (hrest : ∀ c, rest.head? = some c → isDigitChar c = false)
    (hb : digitsVal 0 ds ≤ maxInt64) :
    consumeNumber (pre ++ (ds ++ rest)) pre.length =
      (digitsVal 0 ds, pre.length + ds.length, none) := by
  unfold consumeNumber
  rw [List.drop_left,
    consumeNumberLoop_run ds rest pre.length 0 hds hrest le_rfl hb]
  have hlen : ds.length ≠ 0 := by simpa using hne
  simp only []
  rw [if_neg (by omega)]

theorem get?_append_add (pre l : List Char) (i : Nat) :
    (pre ++ l).get? (pre.length + i) = l.get? i := by
  rw [List.get?_append_right (by omega)]
  congr 1
  omega

theorem consumeUnitSingle_h {input : List Char} {start : Nat}
    (h : input.get? start = some 'h') :
    consumeUnit.consumeUnitSingle input start = (Hour, start + 1, true) := by
  unfold consumeUnit.consumeUnitSingle
  rw [h]
  rfl

theorem consumeUnitSingle_m {input : List Char} {start : Nat}
    (h : input.get? start = some 'm') :
    consumeUnit.consumeUnitSingle input start = (Minute, start + 1, true) := by
  unfold consumeUnit.consumeUnitSingle
  rw [h]
  rfl

theorem consumeUnitSingle_s {input : List Char} {start : Nat}
    (h : input.get? start = some 's') :
    consumeUnit.consumeUnitSingle input start = (Second, start + 1, true) := by
  unfold consumeUnit.consumeUnitSingle
  rw [h]
  rfl

theorem consumeUnitSingle_d {input : List Char} {start : Nat}
    (h : input.get? start = some 'd') :
    consumeUnit.consumeUnitSingle input start = (Day, start + 1, true) := by
  unfold consumeUnit.consumeUnitSingle
  rw [h]
  rfl

theorem consumeUnit_run (pre rest : List Char) (u : GoUnit) (hu : u < 6)
    (hrest : ∀ c, rest.head? = some c → isDigitChar c = true) :
    consumeUnit (pre ++ (unitChars u ++ rest)) pre.length =
      (u, pre.length + (unitChars u).length, true) := by
  have hns : ¬(rest.head? = some 's') := by
    intro h
    have := hrest 's' h
    simp [isDigitChar] at this
  interval_cases u
  · show consumeUnit (pre ++ (['u', 's'] ++ rest)) pre.length = (0, pre.length + 2, true)
    have hget0 : (pre ++ (['u', 's'] ++ rest)).get? pre.length = some 'u' := by
      have h := get?_append_add pre (['u', 's'] ++ rest) 0
      simpa using h
    have hget1 : (pre ++ (['u', 's'] ++ rest)).get? (pre.length + 1) = some 's' := by
      have h := get?_append_add pre (['u', 's'] ++ rest) 1
      simpa using h
    unfold consumeUnit
    simp only [hget0, hget1, if_pos]
    rfl
  · show consumeUnit (pre ++ (['m', 's'] ++ rest)) pre.length = (1, pre.length + 2, true)
    have hget0 : (pre ++ (['m', 's'] ++ rest)).get? pre.length = some 'm' := by
      have h := get?_append_add pre (['m', 's'] ++ rest) 0
      simpa using h
    have hget1 : (pre ++ (['m', 's'] ++ rest)).get? (pre.length + 1) = some 's' := by
      have h := get?_append_add pre (['m', 's'] ++ rest) 1
      simpa using h
    unfold consumeUnit
    simp only [hget0, hget1, if_pos]
    rfl
  · show consumeUnit (pre ++ (['s'] ++ rest)) pre.length = (2, pre.length + 1, true)
    have hget0 : (pre ++ (['s'] ++ rest)).get? pre.length = some 's' := by
      have h := get?_append_add pre (['s'] ++ rest) 0
      simpa using h
    have hget1 : (pre ++ (['s'] ++ rest)).get? (pre.length + 1) = rest.head? := by
      have h := get?_append_add pre (['s'] ++ rest) 1
      simpa [List.head?_eq_getElem?] using h
    unfold consumeUnit
    simp only [hget1]
    rw [if_neg hns]
    exact consumeUnitSingle_s hget0
  · show consumeUnit (pre ++ (['m'] ++ rest)) pre.length = (3, pre.length + 1, true)
    have hget0 : (pre ++ (['m'] ++ rest)).get? pre.length = some 'm' := by
      have h := get?_append_add pre (['m'] ++ rest) 0
      simpa using h
    have hget1 : (pre ++ (['m'] ++ rest)).get? (pre.length + 1) = rest.head? := by
      have h := get?_append_add pre (['m'] ++ rest) 1
      simpa [List.head?_eq_getElem?] using h
    unfold consumeUnit
    simp only [hget1]
    rw [if_neg hns]
    exact consumeUnitSingle_m hget0
  · show consumeUnit (pre ++ (['h'] ++ rest)) pre.length = (4, pre.length + 1, true)
    have hget0 : (pre ++ (['h'] ++ rest)).get? pre.length = some 'h' := by
      have h := get?_append_add pre (['h'] ++ rest) 0
      simpa using h
    have hget1 : (pre ++ (['h'] ++ rest)).get? (pre.length + 1) = rest.head? := by
      have h := get?_append_add pre (['h'] ++ rest) 1
      simpa [List.head?_eq_getElem?] using h
    unfold consumeUnit
    simp only [hget1]
    rw [if_neg hns]
    exact consumeUnitSingle_h hget0
  · show consumeUnit (pre ++ (['d'] ++ rest)) pre.length = (5, pre.length + 1, true)
    have hget0 : (pre ++ (['d'] ++ rest)).get? pre.length = some 'd' := by
      have h := get?_append_add pre (['d'] ++ rest) 0
      simpa using h
    have hget1 : (pre ++ (['d'] ++ rest)).get? (pre.length + 1) = rest.head? := by
      have h := get?_append_add pre (['d'] ++ rest) 1
      simpa [List.head?_eq_getElem?] using h
    unfold consumeUnit
    simp only [hget1]
    rw [if_neg hns]
    exact consumeUnitSingle_d hget0


/-! ### Component rendering lemmas -/

theorem unitNs_nonneg (u : GoUnit) : 0 ≤ unitNs u := by
  unfold unitNs
  split <;> norm_num

theorem unitNs_pos {u : GoUnit} (h : u < 6) : 1000 ≤ unitNs u := by
  interval_cases u <;> norm_num [unitNs]

theorem wrap64_eq_self {x : Int} (h0 : 0 ≤ x) (h1 : x ≤ maxInt64) : wrap64 x = x := by
  unfold wrap64
  unfold maxInt64 at h1
  rw [Int.emod_eq_of_lt (by omega) (by omega)]
  omega

theorem renderComps_cons (c : Nat × GoUnit) (l : List (Nat × GoUnit)) :
    renderComps (c :: l) = renderComp c ++ renderComps l := by
  simp [renderComps]

theorem renderComps_append (l₁ l₂ : List (Nat × GoUnit)) :
    renderComps (l₁ ++ l₂) = renderComps l₁ ++ renderComps l₂ := by
  simp [renderComps]

theorem sumComps_cons (c : Nat × GoUnit) (l : List (Nat × GoUnit)) :
    sumComps (c :: l) = compDur c + sumComps l := by
  simp [sumComps]

theorem sumComps_append (l₁ l₂ : List (Nat × GoUnit)) :
    sumComps (l₁ ++ l₂) = sumComps l₁ + sumComps l₂ := by
  simp [sumComps]

theorem compDur_nonneg (c : Nat × GoUnit) : 0 ≤ compDur c :=
  mul_nonneg (Int.natCast_nonneg c.1) (unitNs_nonneg c.2)

theorem sumComps_nonneg (l : List (Nat × GoUnit)) : 0 ≤ sumComps l := by
  apply List.sum_nonneg
  intro x hx
  simp only [List.mem_map] at hx
  obtain ⟨c, -, rfl⟩ := hx
  exact compDur_nonneg c

theorem unitChars_ne_nil {u : GoUnit} (h : u < 6) : unitChars u ≠ [] := by
  interval_cases u <;> decide

theorem unitChars_head_not_digit {u : GoUnit} (h : u < 6) (X : List Char) :
    ∀ c, (unitChars u ++ X).head? = some c → isDigitChar c = false := by
  interval_cases u <;> (intro c hc; simp only [unitChars, List.cons_append,
    List.head?_cons, Option.some.injEq] at hc; subst hc; decide)

theorem renderComps_head_digit (l : List (Nat × GoUnit)) :
    ∀ c, (renderComps l).head? = some c → isDigitChar c = true := by
  cases l with
  | nil => intro c hc; simp [renderComps] at hc
  | cons x l =>
    intro c hc
    rw [renderComps_cons] at hc
    obtain ⟨c0, cs, heq⟩ := List.exists_cons_of_ne_nil (natToChars_ne_nil x.1)
    rw [renderComp, heq] at hc
    simp only [List.cons_append, List.head?_cons, Option.some.injEq] at hc
    subst hc
    exact natToChars_digits x.1 c0 (by rw [heq]; simp)

theorem renderComp_ne_nil (c : Nat × GoUnit) : renderComp c ≠ [] := by
  unfold renderComp
  intro h
  exact natToChars_ne_nil c.1 (List.append_eq_nil.mp h).1


/-- Parsing the rendered text of a strictly-descending component list
accumulates exactly the component durations. -/
theorem parseLoop_comps (du : GoUnit) (rc : Option RangeChecker)
    (hrc : ∀ (q : Nat) (x t : Int), rangeRejects rc q x t = false) :
    ∀ (comps : List (Nat × GoUnit)) (pre : List Char) (fuel : Nat) (total : Int)
      (prevU : GoUnit),
      (∀ c ∈ comps, c.2 < 6) →
      0 ≤ total →
      total + sumComps comps ≤ maxInt64 →
      (List.Chain (fun a b => b < a) prevU (comps.map Prod.snd) ∨
        (pre = [] ∧ List.Chain' (fun a b => b < a) (comps.map Prod.snd))) →
      (renderComps comps).length ≤ fuel →
      parseLoop (pre ++ renderComps comps) du .multiUnit rc fuel pre.length total prevU =
        .ok (total + sumComps comps) := by
  intro comps
  induction comps with
  | nil =>
    intro pre fuel total prevU _ _ _ _ _
    have hr : renderComps ([] : List (Nat × GoUnit)) = [] := by simp [renderComps]
    have hs : sumComps ([] : List (Nat × GoUnit)) = 0 := by simp [sumComps]
    rw [hr, hs, List.append_nil, add_zero]
    exact parseLoop_exit pre du .multiUnit rc fuel pre.length total prevU le_rfl
  | cons cp rest ih =>
    intro pre fuel total prevU hunits h0 hsum hchain hfuel
    obtain ⟨v, u⟩ := cp
    have hu6 : u < 6 := hunits (v, u) (by simp)
    have hsum_cons : sumComps ((v, u) :: rest) = (v : Int) * unitNs u + sumComps rest := by
      rw [sumComps_cons]; rfl
    have hrest_nonneg := sumComps_nonneg rest
    have hprod_nonneg : 0 ≤ (v : Int) * unitNs u :=
      mul_nonneg (Int.natCast_nonneg v) (unitNs_nonneg u)
    have hprod_le : (v : Int) * unitNs u ≤ maxInt64 := by
      rw [hsum_cons] at hsum; omega
    have hv_le : (v : Int) ≤ maxInt64 := by
      have h1 : (v : Int) ≤ (v : Int) * unitNs u :=
        le_mul_of_one_le_right (Int.natCast_nonneg v) (by linarith [unitNs_pos hu6])
      omega
    have hdv : digitsVal 0 (natToChars v) = (v : Int) := digitsVal_natToChars v
    have hdb : digitsVal 0 (natToChars v) ≤ maxInt64 := by rw [hdv]; exact hv_le
    have hn0 : consumeNumber
        (pre ++ (natToChars v ++ (unitChars u ++ renderComps rest))) pre.length =
        ((v : Int), pre.length + (natToChars v).length, none) := by
      rw [← hdv]
      exact consumeNumber_run pre (natToChars v) (unitChars u ++ renderComps rest)
        (natToChars_ne_nil v) (natToChars_digits v)
        (unitChars_head_not_digit hu6 (renderComps rest)) hdb
    have hinput : pre ++ renderComps ((v, u) :: rest) =
        pre ++ (natToChars v ++ (unitChars u ++ renderComps rest)) := by
      rw [renderComps_cons, renderComp]
      simp [List.append_assoc]
    have hds_pos : 0 < (natToChars v).length := List.length_pos.mpr (natToChars_ne_nil v)
    have huc_pos : 0 < (unitChars u).length := List.length_pos.mpr (unitChars_ne_nil hu6)
    have hplt : pre.length + (natToChars v).length <
        (pre ++ (natToChars v ++ (unitChars u ++ renderComps rest))).length := by
      simp only [List.length_append]
      omega
    have hlt0 : pre.length <
        (pre ++ (natToChars v ++ (unitChars u ++ renderComps rest))).length := by
      simp only [List.length_append]
      omega
    have hu1 : consumeUnit (pre ++ (natToChars v ++ (unitChars u ++ renderComps rest)))
        (pre.length + (natToChars v).length) =
        (u, pre.length + (natToChars v).length + (unitChars u).length, true) := by
      have hassoc : (pre ++ natToChars v) ++ (unitChars u ++ renderComps rest) =
          pre ++ (natToChars v ++ (unitChars u ++ renderComps rest)) := by
        simp [List.append_assoc]
      have hl : (pre ++ natToChars v).length = pre.length + (natToChars v).length := by
        simp
      rw [← hassoc, ← hl]
      exact consumeUnit_run (pre ++ natToChars v) (renderComps rest) u hu6
        (renderComps_head_digit rest)
    have huif : (if pre.length + (natToChars v).length <
          (pre ++ (natToChars v ++ (unitChars u ++ renderComps rest))).length
        then consumeUnit (pre ++ (natToChars v ++ (unitChars u ++ renderComps rest)))
          (pre.length + (natToChars v).length)
        else (du, 0, true)) =
        (u, pre.length + (natToChars v).length + (unitChars u).length, true) := by
      rw [if_pos hplt]
      exact hu1
    have hord : ¬(0 < pre.length ∧ prevU ≤ u) := by
      rcases hchain with hchain | ⟨hpre, hchain⟩
      · rw [List.map_cons, List.chain_cons] at hchain
        exact fun h => absurd h.2 (not_le.2 hchain.1)
      · subst hpre
        simp
    have hup := unitProperties_getElem?_of_lt hu6
    have hwrap : wrap64 ((v : Int) * unitNs u) = (v : Int) * unitNs u :=
      wrap64_eq_self hprod_nonneg hprod_le
    have hov : ¬(wrap64 ((v : Int) * unitNs u) < 0 ∨
        total > maxInt64 - wrap64 ((v : Int) * unitNs u)) := by
      rw [hwrap]
      rw [hsum_cons] at hsum
      push_neg
      omega
    have hchain_rest : List.Chain (fun a b => b < a) u (rest.map Prod.snd) := by
      rcases hchain with hchain | ⟨-, hchain⟩
      · rw [List.map_cons, List.chain_cons] at hchain
        exact hchain.2
      · rw [List.map_cons] at hchain
        exact hchain
    cases fuel with
    | zero =>
      exfalso
      rw [renderComps_cons] at hfuel
      have hne := List.length_pos.mpr (renderComp_ne_nil (v, u))
      simp only [List.length_append] at hfuel
      omega
    | succ f =>
      rw [hinput]
      have hstep := parseLoop_step_continue
        (pre ++ (natToChars v ++ (unitChars u ++ renderComps rest))) du .multiUnit rc
        f pre.length total prevU hlt0 hn0 huif hord hup hov
        (hrc pre.length (wrap64 ((v : Int) * unitNs u)) total) (by simp)
      have hmax : max (pre.length + (natToChars v).length + (unitChars u).length)
          (pre.length + (natToChars v).length) =
          pre.length + (natToChars v).length + (unitChars u).length :=
        max_eq_left (by omega)
      rw [hmax] at hstep
      dsimp only at hstep
      rw [hwrap] at hstep
      rw [hstep]
      have happly := ih (pre ++ natToChars v ++ unitChars u) f
        (total + (v : Int) * unitNs u) u
        (fun c hc => hunits c (by simp [hc]))
        (by omega)
        (by rw [hsum_cons] at hsum; omega)
        (Or.inl hchain_rest)
        (by
          rw [renderComps_cons] at hfuel
          have hle : (renderComp (v, u)).length +
              (renderComps rest).length ≤ f + 1 := by
            simpa [List.length_append] using hfuel
          have hne := List.length_pos.mpr (renderComp_ne_nil (v, u))
          omega)
      have hpre2 : (pre ++ natToChars v ++ unitChars u) ++ renderComps rest =
          pre ++ (natToChars v ++ (unitChars u ++ renderComps rest)) := by
        simp [List.append_assoc]
      have hlen2 : (pre ++ natToChars v ++ unitChars u).length =
          pre.length + (natToChars v).length + (unitChars u).length := by
        simp only [List.length_append]
      rw [hpre2, hlen2] at happly
      rw [happly, hsum_cons]
      ring_nf


/-! ### The formatDuration breakdown -/

theorem sub_tdiv_mul_nonneg {a b : Int} (ha : 0 ≤ a) (hb : 0 < b) :
    0 ≤ a - a.tdiv b * b := by
  rw [Int.tdiv_eq_ediv ha hb.le, mul_comm, ← Int.emod_def]
  exact Int.emod_nonneg a (ne_of_gt hb)

theorem renderComps_ite (c : Prop) [Decidable c] (x : Nat × GoUnit) :
    renderComps (if c then [x] else []) = if c then renderComp x else [] := by
  split <;> simp [renderComps]

theorem sumComps_ite (c : Prop) [Decidable c] (x : Nat × GoUnit) :
    sumComps (if c then [x] else []) = if c then compDur x else 0 := by
  split <;> simp [sumComps]

theorem intToChars_nonneg_unit (x : Int) (hx : 0 ≤ x) (u : GoUnit) :
    intToChars x ++ unitChars u = renderComp (x.toNat, u) := by
  unfold intToChars renderComp
  rw [if_neg (not_lt.2 hx)]

theorem ite_compDur (x : Int) (hx : 0 ≤ x) (u : GoUnit) :
    (if x > 0 then compDur (x.toNat, u) else 0) = x * unitNs u := by
  split
  · unfold compDur
    simp [Int.toNat_of_nonneg hx]
  · next h =>
    have hz : x = 0 := by omega
    simp [hz]

theorem formatDuration_eq_renderComps {d : Int} (h0 : 0 ≤ d) (hne : d ≠ 0) :
    formatDuration d = renderComps (formatComps d) := by
  unfold formatDuration formatComps
  rw [if_neg hne]
  simp only []
  have hdays : 0 ≤ d.tdiv (3600000000000 * 24) := Int.tdiv_nonneg h0 (by norm_num)
  have hd1 : 0 ≤ d - d.tdiv (3600000000000 * 24) * (3600000000000 * 24) :=
    sub_tdiv_mul_nonneg h0 (by norm_num)
  have hhours : 0 ≤ (d - d.tdiv (3600000000000 * 24) * (3600000000000 * 24)).tdiv
      3600000000000 := Int.tdiv_nonneg hd1 (by norm_num)
  have hd2 : 0 ≤ d - d.tdiv (3600000000000 * 24) * (3600000000000 * 24) -
      (d - d.tdiv (3600000000000 * 24) * (3600000000000 * 24)).tdiv 3600000000000 *
        3600000000000 := sub_tdiv_mul_nonneg hd1 (by norm_num)
  have hminutes : 0 ≤ (d - d.tdiv (3600000000000 * 24) * (3600000000000 * 24) -
      (d - d.tdiv (3600000000000 * 24) * (3600000000000 * 24)).tdiv 3600000000000 *
        3600000000000).tdiv 60000000000 := Int.tdiv_nonneg hd2 (by norm_num)
  have hd3 := sub_tdiv_mul_nonneg hd2 (show (0:Int) < 60000000000 by norm_num)
  have hseconds := Int.tdiv_nonneg hd3 (show (0:Int) ≤ 1000000000 by norm_num)
  have hd4 := sub_tdiv_mul_nonneg hd3 (show (0:Int) < 1000000000 by norm_num)
  have hms := Int.tdiv_nonneg hd4 (show (0:Int) ≤ 1000000 by norm_num)
  rw [renderComps_append, renderComps_append, renderComps_append, renderComps_append]
  rw [renderComps_ite, renderComps_ite, renderComps_ite, renderComps_ite, renderComps_ite]
  congr 1
  case _ =>
    congr 1
    case _ =>
      congr 1
      case _ =>
        congr 1
        case _ =>
          split
          · exact intToChars_nonneg_unit _ hdays Day
          · rfl
        case _ =>
          split
          · exact intToChars_nonneg_unit _ hhours Hour
          · rfl
      case _ =>
        split
        · exact intToChars_nonneg_unit _ hminutes Minute
        · rfl
    case _ =>
      split
      · exact intToChars_nonneg_unit _ hseconds Second
      · rfl
  case _ =>
    split
    · exact intToChars_nonneg_unit _ hms Millisecond
    · rfl


theorem formatComps_sum {d : Int} (h0 : 0 ≤ d) (hms6 : d % 1000000 = 0) :
    sumComps (formatComps d) = d := by
  unfold formatComps
  simp only []
  have hdays : 0 ≤ d.tdiv (3600000000000 * 24) := Int.tdiv_nonneg h0 (by norm_num)
  have hd1 : 0 ≤ d - d.tdiv (3600000000000 * 24) * (3600000000000 * 24) :=
    sub_tdiv_mul_nonneg h0 (by norm_num)
  have hhours : 0 ≤ (d - d.tdiv (3600000000000 * 24) * (3600000000000 * 24)).tdiv
      3600000000000 := Int.tdiv_nonneg hd1 (by norm_num)
  have hd2 : 0 ≤ d - d.tdiv (3600000000000 * 24) * (3600000000000 * 24) -
      (d - d.tdiv (3600000000000 * 24) * (3600000000000 * 24)).tdiv 3600000000000 *
        3600000000000 := sub_tdiv_mul_nonneg hd1 (by norm_num)
  have hminutes : 0 ≤ (d - d.tdiv (3600000000000 * 24) * (3600000000000 * 24) -
      (d - d.tdiv (3600000000000 * 24) * (3600000000000 * 24)).tdiv 3600000000000 *
        3600000000000).tdiv 60000000000 := Int.tdiv_nonneg hd2 (by norm_num)
  have hd3 := sub_tdiv_mul_nonneg hd2 (show (0:Int) < 60000000000 by norm_num)
  have hseconds := Int.tdiv_nonneg hd3 (show (0:Int) ≤ 1000000000 by norm_num)
  have hd4 := sub_tdiv_mul_nonneg hd3 (show (0:Int) < 1000000000 by norm_num)
  have hmsq := Int.tdiv_nonneg hd4 (show (0:Int) ≤ 1000000 by norm_num)
  rw [sumComps_append, sumComps_append, sumComps_append, sumComps_append]
  rw [sumComps_ite, sumComps_ite, sumComps_ite, sumComps_ite, sumComps_ite]
  rw [ite_compDur _ hdays Day, ite_compDur _ hhours Hour, ite_compDur _ hminutes Minute,
    ite_compDur _ hseconds Second, ite_compDur _ hmsq Millisecond]
  simp only [Day, Hour, Minute, Second, Millisecond, unitNs]
  rw [Int.tdiv_eq_ediv h0 (by norm_num), Int.tdiv_eq_ediv hd1 (by norm_num),
    Int.tdiv_eq_ediv hd2 (by norm_num), Int.tdiv_eq_ediv hd3 (by norm_num),
    Int.tdiv_eq_ediv hd4 (by norm_num)] at *
  omega

theorem formatComps_units (d : Int) : ∀ c ∈ formatComps d, c.2 < 6 := by
  intro c hc
  unfold formatComps at hc
  simp only [List.mem_append] at hc
  rcases hc with ((((hc | hc) | hc) | hc) | hc) <;>
    (split at hc <;> simp_all [Day, Hour, Minute, Second, Millisecond])

theorem formatComps_chain (d : Int) :
    List.Chain' (fun a b => b < a) ((formatComps d).map Prod.snd) := by
  have htrans : IsTrans GoUnit (fun a b => b < a) := ⟨fun a b c h1 h2 => lt_trans h2 h1⟩
  have hsub : ((formatComps d).map Prod.snd).Sublist [Day, Hour, Minute, Second,
      Millisecond] := by
    unfold formatComps
    simp only [List.map_append, apply_ite (List.map Prod.snd), List.map_cons, List.map_nil]
    have hsplit : [Day, Hour, Minute, Second, Millisecond] =
        [Day] ++ [Hour] ++ [Minute] ++ [Second] ++ [Millisecond] := rfl
    rw [hsplit]
    refine List.Sublist.append (List.Sublist.append (List.Sublist.append
      (List.Sublist.append ?_ ?_) ?_) ?_) ?_ <;>
      (split <;> simp)
  have hbase : List.Chain' (fun a b : GoUnit => b < a)
      [Day, Hour, Minute, Second, Millisecond] := by
    simp only [List.chain'_cons, List.chain'_singleton, Day, Hour, Minute, Second,
      Millisecond, and_true]
    norm_num
  exact @List.Chain'.sublist GoUnit (fun a b => b < a) _ _ htrans hbase hsub


/-- C2 (counterexample): "200us" parses to 200000ns, but
`formatDuration` drops sub-millisecond precision (here producing the
empty string), so re-parsing with the finest default unit returns 0,
not the original duration. -/
theorem c2_counterexample :
    ParseDuration "200us" Millisecond .multiUnit (some NoRangeChecking) = .ok 200000 ∧
    formatDuration 200000 = [] ∧
    ParseDuration (String.mk (formatDuration 200000)) Microsecond .multiUnit
      (some NoRangeChecking) = .ok 0 ∧
    ¬ ParseDuration (String.mk (formatDuration 200000)) Microsecond .multiUnit
      (some NoRangeChecking) = .ok 200000 := by
  refine ⟨by decide, by decide, by decide, by decide⟩

/-- C2 (amended): for every duration that `ParseDuration` successfully
returns and that is a whole number of milliseconds, formatting it and
re-parsing with multi-unit mode, no range checking and the finest
supported tick (`Microsecond`) as the default unit reproduces the
duration exactly. -/
theorem c2_roundtrip_whole_milliseconds (s : String) (du : GoUnit) (pm : ParseMode)
    (rc : Option RangeChecker) (d : Int)
    (hok : ParseDuration s du pm rc = .ok d)
    (hms6 : d % 1000000 = 0) :
    ParseDuration (String.mk (formatDuration d)) Microsecond .multiUnit
      (some NoRangeChecking) = .ok d := by
  obtain ⟨h0, h1⟩ := parseLoop_ok_bounds s.data du pm rc s.data.length 0 0 Day d
    le_rfl (by norm_num [maxInt64]) hok
  by_cases hz : d = 0
  · subst hz
    decide
  · have hrc : ∀ (q : Nat) (x t : Int), rangeRejects (some NoRangeChecking) q x t = false := by
      intro q x t
      simp [rangeRejects, NoRangeChecking]
    have hmain := parseLoop_comps Microsecond (some NoRangeChecking) hrc (formatComps d)
      [] (renderComps (formatComps d)).length 0 Day (formatComps_units d) le_rfl
      (by rw [zero_add, formatComps_sum h0 hms6]; exact h1)
      (Or.inr ⟨rfl, formatComps_chain d⟩) le_rfl
    rw [List.nil_append, List.length_nil, zero_add, formatComps_sum h0 hms6] at hmain
    show parseLoop (String.mk (formatDuration d)).data Microsecond .multiUnit
      (some NoRangeChecking) (String.mk (formatDuration d)).data.length 0 0 Day = .ok d
    have hdata : (String.mk (formatDuration d)).data = renderComps (formatComps d) := by
      show formatDuration d = renderComps (formatComps d)
      exact formatDuration_eq_renderComps h0 hz
    rw [hdata]
    exact hmain

/-- C2 witness: the round trip applied to the parse of "1h". -/
theorem c2_witness :
    ParseDuration "1h" Millisecond .multiUnit (some NoRangeChecking) =
      .ok 3600000000000 ∧
    (3600000000000 : Int) % 1000000 = 0 ∧
    ParseDuration (String.mk (formatDuration 3600000000000)) Microsecond .multiUnit
      (some NoRangeChecking) = .ok 3600000000000 :=
  ⟨by decide, by decide,
   c2_roundtrip_whole_milliseconds "1h" Millisecond .multiUnit (some NoRangeChecking)
     3600000000000 (by decide) (by decide)⟩

end Comptime
